import Mathlib

/-!
# RTE-A reference implementation: task attestation and audit chain

Shallow embedding of `pkg/rte/task.go` (task model, validation, signing,
verification) and of the spec-described audit chain, together with proofs of
the spec's testable properties.

Modelling conventions:
* Go `time.Time` instants are `Int` nanoseconds since an arbitrary epoch;
  `time.Duration(n) * time.Second` is `n * nsPerSecond`.
* Go byte slices (`[]byte`, keys, signatures) are `List Nat` of byte values.
* The ed25519 primitive is an external collaborator; it is modelled as an
  explicit `SigPrim` record of operations, with its correctness properties
  stated as the `SigCorrect` predicate.
* `json.Marshal` of a `Task` is modelled by `marshalTask`, which follows the
  Go struct's field order and `omitempty` tags; map keys are sorted as
  `encoding/json` sorts them.  String escaping is not modelled (task fields
  are treated as escape-free text).
* A nil `*Task` receiver / nil `*SignedTask` argument is `Option`'s `none`.
* The implicit `time.Now().UTC()` calls inside `SignTask` and `VerifyTask`
  are surfaced as an explicit `now : Int` argument recording the instant the
  call happens to read from the global clock.
-/

deriving instance DecidableEq for Except

namespace RTE

/-- `time.Second` in nanoseconds, the unit of Go `time.Duration`. -/
def nsPerSecond : Int := 1000000000

/-- Go `type TaskType string`. -/
abbrev TaskType := String

/-- Go `type TaskState string`. -/
abbrev TaskState := String

def TaskSimulateLogin : TaskType := "simulate_login"

def TaskSimulateBeacon : TaskType := "simulate_beacon"

def TaskInventory : TaskType := "inventory"

def TaskEmitSynthetic : TaskType := "emit_synthetic"

def StatePending : TaskState := "pending"

def StateExecuting : TaskState := "executing"

def StateCancelled : TaskState := "cancelled"

def StateCompleted : TaskState := "completed"

def StateFailed : TaskState := "failed"

def maxTTLSeconds : Int := 3600

def minTTLSeconds : Int := 1

/-- Go `allowedTaskTypes` map, modelled as the list of its keys. -/
def allowedTaskTypes : List TaskType :=
  [TaskSimulateLogin, TaskSimulateBeacon, TaskInventory, TaskEmitSynthetic]

/-- Go `validTaskStates` map, modelled as the list of its keys. -/
def validTaskStates : List TaskState :=
  [StatePending, StateExecuting, StateCancelled, StateCompleted, StateFailed]

/-- Go `type Task struct`.  `Params` is the key/value contents of the Go
`map[string]string` (`nil` map and empty map are both `[]`); the aliasing
behaviour of the map reference is modelled separately by `GoTask`. -/
structure Task where
  ID : String
  Engagement : String
  typ : TaskType
  CreatedAt : Int
  TTLSeconds : Int
  Operator : String
  ApprovedBy : String
  State : TaskState
  CancelToken : String
  Params : List (String × String)

deriving DecidableEq, Repr

/-- The closed taxonomy of validation failures of `Task.Validate`, one
constructor per distinct `return` of an error in the Go source. -/
inductive ValidationError where
  | nilTask
  | missingID
  | missingEngagement
  | missingOperator
  | missingApprovedBy
  | unsupportedType
  | ttlOutOfRange
  | invalidState
  | expired

deriving DecidableEq, Repr

/-- `t.CreatedAt.Add(time.Duration(t.TTLSeconds) * time.Second)`. -/
def expiryOf (t : Task) : Int :=
  t.CreatedAt + t.TTLSeconds * nsPerSecond

/-- Go `func (t *Task) Validate(now time.Time) error`.  The receiver is an
`Option Task` so that the nil-pointer guard is represented; checks are
evaluated in the source's order and the first failure is returned. -/
def Validate (t? : Option Task) (now : Int) : Except ValidationError Unit :=
  match t? with
  | none => .error .nilTask
  | some t =>
    if t.ID = "" then .error .missingID
    else if t.Engagement = "" then .error .missingEngagement
    else if t.Operator = "" then .error .missingOperator
    else if t.ApprovedBy = "" then .error .missingApprovedBy
    else if t.typ ∉ allowedTaskTypes then .error .unsupportedType
    else if t.TTLSeconds < minTTLSeconds ∨ t.TTLSeconds > maxTTLSeconds then
      .error .ttlOutOfRange
    else if t.State ∉ validTaskStates then .error .invalidState
    else if expiryOf t ≤ now then .error .expired
    else .ok ()

/-- The seven field invariants of a task that do not depend on the clock. -/
def FieldInvariants (t : Task) : Prop :=
  t.ID ≠ "" ∧ t.Engagement ≠ "" ∧ t.Operator ≠ "" ∧ t.ApprovedBy ≠ "" ∧
  t.typ ∈ allowedTaskTypes ∧
  (minTTLSeconds ≤ t.TTLSeconds ∧ t.TTLSeconds ≤ maxTTLSeconds) ∧
  t.State ∈ validTaskStates

instance (t : Task) : Decidable (FieldInvariants t) := by
  unfold FieldInvariants; infer_instance

/-- The conjunction of the eight invariants `Validate` enforces on a task at
instant `now`, in the spec's wording. -/
def TaskValid (t : Task) (now : Int) : Prop :=
  FieldInvariants t ∧ now < expiryOf t

instance (t : Task) (now : Int) : Decidable (TaskValid t now) := by
  unfold TaskValid; infer_instance

/-! ## Decimal rendering of instants

`encoding/json` renders the `created_at` instant as a lossless RFC3339 UTC
string and parses it back without precision loss.  The rendering is modelled
as the decimal numeral of the nanosecond instant, with a verified parser. -/

/-- The character for decimal digit `d`. -/
def digitChar (d : Nat) : Char := Char.ofNat (48 + d)

/-- The digit value of character `c`. -/
def charDigit (c : Char) : Nat := c.toNat - 48

/-- Is `c` one of the ten decimal digit characters? -/
def isDigitChar (c : Char) : Bool := decide (48 ≤ c.toNat ∧ c.toNat ≤ 57)

/-- Little-endian digit characters of `n`; `fuel` bounds the recursion so the
definition is structural and evaluates by kernel reduction. -/
def natDigitsAux : Nat → Nat → List Char
  | 0, _ => []
  | _ + 1, 0 => []
  | fuel + 1, n + 1 => digitChar ((n + 1) % 10) :: natDigitsAux fuel ((n + 1) / 10)

/-- The decimal numeral of `n`, most significant digit first. -/
def renderNat (n : Nat) : List Char :=
  if n = 0 then ['0'] else (natDigitsAux n n).reverse

/-- Parse a decimal numeral; `none` on the empty string or a non-digit. -/
def parseNat (cs : List Char) : Option Nat :=
  if cs ≠ [] ∧ cs.all isDigitChar then
    some (Nat.ofDigits 10 ((cs.map charDigit).reverse))
  else none

/-- The decimal numeral of `i`, with a leading minus sign when negative. -/
def renderInt (i : Int) : String :=
  if i < 0 then String.mk ('-' :: renderNat i.natAbs)
  else String.mk (renderNat i.natAbs)

def parseIntChars (cs : List Char) : Option Int :=
  if cs.head? = some '-' then Option.map (fun n : Nat => -(n : Int)) (parseNat cs.tail)
  else Option.map (fun n : Nat => (n : Int)) (parseNat cs)

def parseInt (s : String) : Option Int := parseIntChars s.data

/-! ## Canonical task payload

`json.Marshal(task)` in the Go source: fields in struct order, `omitempty`
on `cancel_token` and `params`, map keys emitted in sorted order as
`encoding/json` does. -/

instance : DecidableRel (fun p q : String × String => p.1 ≤ q.1) :=
  fun p q => inferInstanceAs (Decidable (p.1 ≤ q.1))

instance : IsTotal (String × String) (fun p q => p.1 ≤ q.1) :=
  ⟨fun p q => le_total p.1 q.1⟩

instance : IsTrans (String × String) (fun p q => p.1 ≤ q.1) :=
  ⟨fun _ _ _ h h' => le_trans h h'⟩

/-- The key-sorted rendering order of a Go `map[string]string`. -/
def sortParams (l : List (String × String)) : List (String × String) :=
  l.insertionSort (fun p q => p.1 ≤ q.1)

/-- A JSON string literal (task fields are modelled as escape-free text). -/
def quoteStr (s : String) : String := "\"" ++ s ++ "\""

def marshalParams (l : List (String × String)) : String :=
  "\x7b" ++
    String.intercalate "," ((sortParams l).map (fun p => quoteStr p.1 ++ ":" ++ quoteStr p.2))
    ++ "\x7d"

/-- `json.Marshal` of a `Task`: the canonical byte payload that is signed and
verified.  It cannot fail for this struct, so it is a total function. -/
def marshalTask (t : Task) : String :=
  "\x7b" ++ "\"id\":" ++ quoteStr t.ID
  ++ ",\"engagement\":" ++ quoteStr t.Engagement
  ++ ",\"type\":" ++ quoteStr t.typ
  ++ ",\"created_at\":" ++ quoteStr (renderInt t.CreatedAt)
  ++ ",\"ttl_seconds\":" ++ renderInt t.TTLSeconds
  ++ ",\"operator\":" ++ quoteStr t.Operator
  ++ ",\"approved_by\":" ++ quoteStr t.ApprovedBy
  ++ ",\"state\":" ++ quoteStr t.State
  ++ (if t.CancelToken = "" then "" else ",\"cancel_token\":" ++ quoteStr t.CancelToken)
  ++ (if t.Params = [] then "" else ",\"params\":" ++ marshalParams t.Params)
  ++ "\x7d"

/-! ## Attestation protocol -/

def ed25519PublicKeySize : Nat := 32

def ed25519PrivateKeySize : Nat := 64

def ed25519SignatureSize : Nat := 64

/-- The externally supplied signature primitive (`crypto/ed25519`), as the
record of operations the protocol calls: key generation from an entropy
stream, deterministic signing, and verification. -/
structure SigPrim where
  keygen : List Nat → List Nat × List Nat
  sign : List Nat → String → List Nat
  verify : List Nat → String → List Nat → Bool

/-- The contract the real primitive satisfies: generated keys and produced
signatures have the fixed ed25519 sizes, and a signature made with the
private half of a generated pair verifies under the public half. -/
structure SigCorrect (P : SigPrim) : Prop where
  keygen_pub_size : ∀ e, (P.keygen e).1.length = ed25519PublicKeySize
  keygen_priv_size : ∀ e, (P.keygen e).2.length = ed25519PrivateKeySize
  sign_size : ∀ priv msg, (P.sign priv msg).length = ed25519SignatureSize
  verify_sign : ∀ e msg,
    P.verify (P.keygen e).1 msg (P.sign (P.keygen e).2 msg) = true

inductive SignError where
  | invalidPrivateKeySize
  | invalidPublicKeySize
  | validationFailed (e : ValidationError)

deriving DecidableEq, Repr

/-- Go `type SignedTask struct`. -/
structure SignedTask where
  task : Task
  PublicKey : List Nat
  Signature : List Nat

deriving DecidableEq, Repr

/-- Go `func SignTask(task Task, priv ed25519.PrivateKey, pub ed25519.PublicKey)`.
`now` is the instant the internal `time.Now().UTC()` call reads. -/
def SignTask (P : SigPrim) (task : Task) (priv pub : List Nat) (now : Int) :
    Except SignError SignedTask :=
  if priv.length ≠ ed25519PrivateKeySize then .error .invalidPrivateKeySize
  else if pub.length ≠ ed25519PublicKeySize then .error .invalidPublicKeySize
  else match Validate (some task) now with
    | .error e => .error (.validationFailed e)
    | .ok () =>
      .ok { task := task, PublicKey := pub, Signature := P.sign priv (marshalTask task) }

inductive VerifyError where
  | nilSignedTask
  | invalidPublicKeySize
  | invalidSignatureSize
  | signatureInvalid
  | validation (e : ValidationError)

deriving DecidableEq, Repr

/-- Go `func VerifyTask(st *SignedTask) error`.  `now` is the instant the
internal `time.Now().UTC()` call reads; the final validation error of the
embedded task is returned unchanged, as in the source. -/
def VerifyTask (P : SigPrim) (st? : Option SignedTask) (now : Int) :
    Except VerifyError Unit :=
  match st? with
  | none => .error .nilSignedTask
  | some st =>
    if st.PublicKey.length ≠ ed25519PublicKeySize then .error .invalidPublicKeySize
    else if st.Signature.length ≠ ed25519SignatureSize then .error .invalidSignatureSize
    else if P.verify st.PublicKey (marshalTask st.task) st.Signature = false then
      .error .signatureInvalid
    else match Validate (some st.task) now with
      | .error e => .error (.validation e)
      | .ok () => .ok ()

/-- Go `func GenerateKeyPair()`: delegates to the primitive's key generation
on the entropy stream (`rand.Reader` at the Go level). -/
def GenerateKeyPair (P : SigPrim) (entropy : List Nat) : List Nat × List Nat :=
  P.keygen entropy

/-! A small concrete primitive used to exercise the protocol theorems on
explicit inputs.  It satisfies `SigCorrect` (sizes and sign/verify agreement)
without any cryptographic strength. -/

def toyPriv (e : List Nat) : List Nat :=
  (e ++ List.replicate ed25519PrivateKeySize 0).take ed25519PrivateKeySize

def toyDerive (priv : List Nat) : List Nat :=
  (priv ++ List.replicate ed25519PublicKeySize 0).take ed25519PublicKeySize

def msgSum (msg : String) : Nat :=
  msg.data.foldl (fun a c => a + c.toNat) 0

def toySig (pub : List Nat) (msg : String) : List Nat :=
  List.replicate 63 0 ++ [(pub.foldl (fun a b => a + b) 0 + msgSum msg) % 256]

def toyPrim : SigPrim where
  keygen e := (toyDerive (toyPriv e), toyPriv e)
  sign priv msg := toySig (toyDerive priv) msg
  verify pub msg sig := decide (sig = toySig pub msg)

/-! ## Go memory model of the Params map reference

Go structs copy by value, but a `map[string]string` field copies as a
reference to shared storage.  `GoTask` is the in-memory task value; the heap
maps addresses to map contents. -/

abbrev Heap := List (List (String × String))

/-- A Go `Task` value as it sits in memory: scalar fields inline and the
`Params` map as a reference into the heap (`none` is the nil map). -/
structure GoTask where
  ID : String
  Engagement : String
  typ : TaskType
  CreatedAt : Int
  TTLSeconds : Int
  Operator : String
  ApprovedBy : String
  State : TaskState
  CancelToken : String
  ParamsRef : Option Nat

deriving DecidableEq, Repr

def readMap (h : Heap) : Option Nat → List (String × String)
  | none => []
  | some a => h.getD a []

/-- The logical `Task` value denoted by an in-memory `GoTask` under heap `h`. -/
def readTask (h : Heap) (gt : GoTask) : Task :=
  { ID := gt.ID
    Engagement := gt.Engagement
    typ := gt.typ
    CreatedAt := gt.CreatedAt
    TTLSeconds := gt.TTLSeconds
    Operator := gt.Operator
    ApprovedBy := gt.ApprovedBy
    State := gt.State
    CancelToken := gt.CancelToken
    Params := readMap h gt.ParamsRef }

structure GoSignedTask where
  task : GoTask
  PublicKey : List Nat
  Signature : List Nat

deriving DecidableEq, Repr

/-- `SignTask` as executed on the in-memory representation: the Go literal
`SignedTask{Task: task, ...}` copies the struct shallowly, so the embedded
task carries the same map reference as the caller's value. -/
def SignTaskGo (P : SigPrim) (h : Heap) (gt : GoTask) (priv pub : List Nat)
    (now : Int) : Except SignError GoSignedTask :=
  if priv.length ≠ ed25519PrivateKeySize then .error .invalidPrivateKeySize
  else if pub.length ≠ ed25519PublicKeySize then .error .invalidPublicKeySize
  else match Validate (some (readTask h gt)) now with
    | .error e => .error (.validationFailed e)
    | .ok () => .ok { task := gt, PublicKey := pub,
                      Signature := P.sign priv (marshalTask (readTask h gt)) }

/-- `VerifyTask` on the in-memory representation: the embedded task's map
reference is dereferenced against the heap as it is at verification time. -/
def VerifyTaskGo (P : SigPrim) (h : Heap) (st? : Option GoSignedTask)
    (now : Int) : Except VerifyError Unit :=
  VerifyTask P (st?.map (fun st =>
    { task := readTask h st.task, PublicKey := st.PublicKey,
      Signature := st.Signature })) now

/-- Go `m[k] = v` on a map value: overwrite the key if present, else add it. -/
def setKey (m : List (String × String)) (k v : String) : List (String × String) :=
  if m.any (fun p => p.1 == k) then m.map (fun p => if p.1 = k then (k, v) else p)
  else m ++ [(k, v)]

/-- The heap after executing `m[k] = v` on the map at address `a`. -/
def mapAssign (h : Heap) (a : Nat) (k v : String) : Heap :=
  h.set a (setKey (h.getD a []) k v)

/-! ## External SignedTask representation

§6 of the design: a structured object with the nested task's wire fields,
raw key bytes, and raw signature bytes; `created_at` carried as its lossless
textual timestamp (modelled by the verified decimal rendering). -/

structure ExternalSignedTask where
  id : String
  engagement : String
  typ : String
  created_at : String
  ttl_seconds : Int
  operator : String
  approved_by : String
  state : String
  cancel_token : String
  params : List (String × String)
  public_key : List Nat
  signature : List Nat

deriving DecidableEq, Repr

/-- Serialize a `SignedTask` to its external representation; the map is
emitted in its canonical key-sorted order, as `encoding/json` emits it. -/
def marshalSignedTask (st : SignedTask) : ExternalSignedTask :=
  { id := st.task.ID
    engagement := st.task.Engagement
    typ := st.task.typ
    created_at := renderInt st.task.CreatedAt
    ttl_seconds := st.task.TTLSeconds
    operator := st.task.Operator
    approved_by := st.task.ApprovedBy
    state := st.task.State
    cancel_token := st.task.CancelToken
    params := sortParams st.task.Params
    public_key := st.PublicKey
    signature := st.Signature }

/-- Deserialize the external representation; fails if the timestamp text
does not parse. -/
def unmarshalSignedTask (x : ExternalSignedTask) : Option SignedTask :=
  (parseInt x.created_at).map (fun c =>
    { task :=
        { ID := x.id
          Engagement := x.engagement
          typ := x.typ
          CreatedAt := c
          TTLSeconds := x.ttl_seconds
          Operator := x.operator
          ApprovedBy := x.approved_by
          State := x.state
          CancelToken := x.cancel_token
          Params := x.params }
      PublicKey := x.public_key
      Signature := x.signature })

/-- The value a `SignedTask` round-trips to: the same task with its map in
canonical key-sorted order. -/
def canonSigned (st : SignedTask) : SignedTask :=
  { st with task := { st.task with Params := sortParams st.task.Params } }

/-! ## Audit chain (spec-modelled)

The Python `rte_a_audit` implementation is not among the sources; the audit
chain is modelled from the spec's data-model invariant and the described
`append`/`verifyChain` operations. -/

/-- Modelled from the spec: the audit chain's fixed digest function.  A
prefixed copy of the input is used, so distinct inputs have distinct
digests; injectivity stands in for collision resistance of the real
digest. -/
def Digest (s : String) : String := "digest:" ++ s

/-- Modelled from the spec: the fixed sentinel digest used as the previous
chain hash of the first record in a log. -/
def sentinelDigest : String := Digest "genesis"

/-- Modelled from the spec: one entry of the tamper-evident log, with the
external-representation fields of §6. -/
structure AuditRecord where
  sequence : Nat
  timestamp : String
  operator_id : String
  engagement_id : String
  action : String
  result_hash : String
  authorization : String
  task_id : String
  prev_hash : String
  chain_hash : String

deriving DecidableEq, Repr

/-- Modelled from the spec: the digest input of the §3 invariant, the
previous chain hash concatenated with the record's hashed fields. -/
def chainInput (prev : String) (seq : Nat)
    (timestamp operator_id engagement_id action result_hash authorization : String) :
    String :=
  prev ++ String.mk (renderNat seq) ++ timestamp ++ operator_id ++
    engagement_id ++ action ++ result_hash ++ authorization

def recordInput (prev : String) (r : AuditRecord) : String :=
  chainInput prev r.sequence r.timestamp r.operator_id r.engagement_id
    r.action r.result_hash r.authorization

/-- Modelled from the spec: one logical log instance, scoped to one
engagement/operator context, owning its ordered record sequence. -/
structure AuditLogger where
  engagement_id : String
  operator_id : String
  records : List AuditRecord

deriving DecidableEq, Repr

def newLogger (engagement_id operator_id : String) : AuditLogger :=
  { engagement_id := engagement_id, operator_id := operator_id, records := [] }

def lastChainHash (l : AuditLogger) : String :=
  match l.records.getLast? with
  | none => sentinelDigest
  | some r => r.chain_hash

/-- Modelled from the spec: `append(action, resultPayload, authorization, taskID)`
with the timestamp supplied explicitly (injectable clock); assigns the next
sequence number (starting at 0), hashes the result payload, and links to the
previous record's chain hash (or the sentinel). -/
def appendRecord (l : AuditLogger)
    (timestamp action resultPayload authorization task_id : String) :
    AuditLogger :=
  let seq := l.records.length
  let prev := lastChainHash l
  let rhash := Digest resultPayload
  let r : AuditRecord :=
    { sequence := seq
      timestamp := timestamp
      operator_id := l.operator_id
      engagement_id := l.engagement_id
      action := action
      result_hash := rhash
      authorization := authorization
      task_id := task_id
      prev_hash := prev
      chain_hash := Digest (chainInput prev seq timestamp l.operator_id
        l.engagement_id action rhash authorization) }
  { l with records := l.records ++ [r] }

/-- Modelled from the spec: the `verifyChain` walk — checks contiguous
sequence numbers from `i` and recomputes each record's chain hash from the
previous record's stored chain hash (`prev`), returning false on the first
mismatch or sequence gap. -/
def verifyFrom (prev : String) (i : Nat) : List AuditRecord → Bool
  | [] => true
  | r :: rs =>
    if r.sequence ≠ i then false
    else if r.chain_hash ≠ Digest (recordInput prev r) then false
    else verifyFrom r.chain_hash (i + 1) rs

/-- Modelled from the spec: `verifyChain(records)`, starting at sequence 0
with the sentinel digest. -/
def verifyChain (records : List AuditRecord) : Bool :=
  verifyFrom sentinelDigest 0 records

/-- The chain hash accumulated by walking `rs` from `prev`. -/
def walkLast (prev : String) : List AuditRecord → String
  | [] => prev
  | r :: rs => walkLast r.chain_hash rs

/-- The arguments of one `appendRecord` call. -/
structure AppendInput where
  timestamp : String
  action : String
  resultPayload : String
  authorization : String
  task_id : String

deriving DecidableEq, Repr

/-- A log produced only by `appendRecord` calls. -/
def runLog (l : AuditLogger) (xs : List AppendInput) : AuditLogger :=
  xs.foldl (fun acc x =>
    appendRecord acc x.timestamp x.action x.resultPayload x.authorization x.task_id) l

/-- The invariant a log instance maintains: its records verify from the
sentinel, and the walk's final hash agrees with `lastChainHash`. -/
def LogWF (l : AuditLogger) : Prop :=
  verifyFrom sentinelDigest 0 l.records = true ∧
    walkLast sentinelDigest l.records = lastChainHash l

/-! ## Concrete values exercising the theorems -/

def wTask : Task :=
  { ID := "task-001"
    Engagement := "eng-2026-q1"
    typ := TaskSimulateLogin
    CreatedAt := 0
    TTLSeconds := 600
    Operator := "op-alice"
    ApprovedBy := "lead-bob"
    State := StatePending
    CancelToken := ""
    Params := [("target", "10.0.0.0/24")] }

def wPriv : List Nat := toyPriv [1]

def wPub : List Nat := toyDerive wPriv

def wSigned : SignedTask :=
  { task := wTask
    PublicKey := wPub
    Signature := toyPrim.sign wPriv (marshalTask wTask) }

def wHeap : Heap := [[("target", "10.0.0.0/24")]]

def wGoTask : GoTask :=
  { ID := "task-001"
    Engagement := "eng-2026-q1"
    typ := TaskSimulateLogin
    CreatedAt := 0
    TTLSeconds := 600
    Operator := "op-alice"
    ApprovedBy := "lead-bob"
    State := StatePending
    CancelToken := ""
    ParamsRef := some 0 }

def wGoSigned : GoSignedTask :=
  { task := wGoTask
    PublicKey := wPub
    Signature := toyPrim.sign wPriv (marshalTask (readTask wHeap wGoTask)) }

/-- The heap after the caller later runs `task.Params["target"] = "10.9.9.9/32"`
on the original task value. -/
def wHeapMut : Heap := mapAssign wHeap 0 "target" "10.9.9.9/32"

def wDefaultRec : AuditRecord :=
  { sequence := 0
    timestamp := ""
    operator_id := ""
    engagement_id := ""
    action := ""
    result_hash := ""
    authorization := ""
    task_id := ""
    prev_hash := ""
    chain_hash := "" }

def wAppends : List AppendInput :=
  [ { timestamp := "2026-01-01T00:00:00Z"
      action := "recon_scan"
      resultPayload := "hosts:5"
      authorization := "task-001"
      task_id := "task-001" },
    { timestamp := "2026-01-01T00:05:00Z"
      action := "emit_synthetic"
      resultPayload := "events:2"
      authorization := "task-002"
      task_id := "task-002" },
    { timestamp := "2026-01-01T00:10:00Z"
      action := "inventory"
      resultPayload := "nodes:3"
      authorization := "task-003"
      task_id := "task-003" } ]

def wAuditLog : AuditLogger := runLog (newLogger "eng-2026-q1" "op-alice") wAppends

def wRecs : List AuditRecord := wAuditLog.records

/-- `wRecs` with exactly one field of one record changed: record 1's stored
`task_id` replaced. -/
def wMutRecs : List AuditRecord :=
  wRecs.set 1 { wRecs.getD 1 wDefaultRec with task_id := "task-999" }

/-! ## Theorems -/

theorem validate_ok_of_valid (t : Task) (now : Int) (h : TaskValid t now) :
    Validate (some t) now = .ok () := by
  obtain ⟨⟨h1, h2, h3, h4, h5, ⟨h6a, h6b⟩, h7⟩, h8⟩ := h
  simp [Validate, h1, h2, h3, h4, h5, h7]
  rw [if_neg (by omega), if_neg (by omega)]

theorem validate_valid_of_ok (t : Task) (now : Int)
    (h : Validate (some t) now = .ok ()) : TaskValid t now := by
  unfold Validate at h
  unfold TaskValid FieldInvariants
  by_cases h1 : t.ID = "" <;> simp [h1] at h
  by_cases h2 : t.Engagement = "" <;> simp [h2] at h
  by_cases h3 : t.Operator = "" <;> simp [h3] at h
  by_cases h4 : t.ApprovedBy = "" <;> simp [h4] at h
  by_cases h5 : t.typ ∈ allowedTaskTypes <;> simp [h5] at h
  rcases h6 : decide (t.TTLSeconds < minTTLSeconds ∨ t.TTLSeconds > maxTTLSeconds) with _ | _
  · rw [if_neg (of_decide_eq_false h6)] at h
    have h6' := of_decide_eq_false h6
    by_cases h7 : t.State ∈ validTaskStates <;> simp [h7] at h
    exact ⟨⟨h1, h2, h3, h4, h5, ⟨by omega, by omega⟩, h7⟩, h⟩
  · rw [if_pos (of_decide_eq_true h6)] at h
    exact absurd h (by simp)

theorem validate_expired_of_fields (t : Task) (now : Int)
    (h : FieldInvariants t) (hexp : expiryOf t ≤ now) :
    Validate (some t) now = .error .expired := by
  obtain ⟨h1, h2, h3, h4, h5, ⟨h6a, h6b⟩, h7⟩ := h
  simp [Validate, h1, h2, h3, h4, h5, h7]
  rw [if_neg (by omega), if_pos hexp]

theorem natDigitsAux_eq (fuel n : Nat) (h : n ≤ fuel) :
    natDigitsAux fuel n = (Nat.digits 10 n).map digitChar := by
  induction fuel generalizing n with
  | zero =>
    interval_cases n
    simp [natDigitsAux]
  | succ f ih =>
    cases n with
    | zero => simp [natDigitsAux]
    | succ m =>
      rw [natDigitsAux, Nat.digits_def' (by norm_num : (1 : Nat) < 10) (Nat.succ_pos m),
        List.map_cons]
      congr 1
      exact ih ((m + 1) / 10) (by omega)

theorem renderNat_eq (n : Nat) :
    renderNat n = if n = 0 then ['0'] else (Nat.digits 10 n).reverse.map digitChar := by
  unfold renderNat
  by_cases h0 : n = 0
  · rw [if_pos h0, if_pos h0]
  · rw [if_neg h0, if_neg h0, natDigitsAux_eq n n le_rfl, List.map_reverse]

theorem charDigit_digitChar {d : Nat} (h : d < 10) :
    charDigit (digitChar d) = d := by
  interval_cases d <;> decide

theorem isDigitChar_digitChar {d : Nat} (h : d < 10) :
    isDigitChar (digitChar d) = true := by
  interval_cases d <;> decide

theorem digitChar_ne_minus {d : Nat} (h : d < 10) : digitChar d ≠ '-' := by
  interval_cases d <;> decide

theorem parseNat_renderNat (n : Nat) : parseNat (renderNat n) = some n := by
  by_cases h0 : n = 0
  · subst h0; decide
  · have hne : Nat.digits 10 n ≠ [] := Nat.digits_ne_nil_iff_ne_zero.mpr h0
    have hlt : ∀ d ∈ Nat.digits 10 n, d < 10 :=
      fun d hd => Nat.digits_lt_base (by norm_num) hd
    rw [renderNat_eq]
    unfold parseNat
    rw [if_neg h0]
    have hall : ((Nat.digits 10 n).reverse.map digitChar).all isDigitChar = true := by
      rw [List.all_eq_true]
      intro c hc
      rw [List.mem_map] at hc
      obtain ⟨d, hd, rfl⟩ := hc
      exact isDigitChar_digitChar (hlt d (List.mem_reverse.mp hd))
    have hnil : (Nat.digits 10 n).reverse.map digitChar ≠ [] := by
      simp [hne]
    rw [if_pos ⟨hnil, hall⟩]
    have hmap : ((Nat.digits 10 n).reverse.map digitChar).map charDigit
        = (Nat.digits 10 n).reverse := by
      rw [List.map_map]
      have := List.map_congr_left (l := (Nat.digits 10 n).reverse)
        (f := charDigit ∘ digitChar) (g := id)
        (fun d hd => charDigit_digitChar (hlt d (List.mem_reverse.mp hd)))
      rw [this, List.map_id]
    rw [hmap, List.reverse_reverse, Nat.ofDigits_digits]

theorem renderNat_head_ne_minus (n : Nat) :
    ∀ c ∈ renderNat n, c ≠ '-' := by
  intro c hc
  rw [renderNat_eq] at hc
  by_cases h0 : n = 0
  · rw [if_pos h0] at hc
    simp at hc
    subst hc; decide
  · rw [if_neg h0] at hc
    rw [List.mem_map] at hc
    obtain ⟨d, hd, rfl⟩ := hc
    exact digitChar_ne_minus (Nat.digits_lt_base (by norm_num) (List.mem_reverse.mp hd))

theorem renderNat_ne_nil (n : Nat) : renderNat n ≠ [] := by
  rw [renderNat_eq]
  by_cases h0 : n = 0
  · rw [if_pos h0]; decide
  · rw [if_neg h0]
    simp [Nat.digits_ne_nil_iff_ne_zero.mpr h0]

theorem parseInt_renderInt (i : Int) : parseInt (renderInt i) = some i := by
  unfold parseInt renderInt
  by_cases hneg : i < 0
  · rw [if_pos hneg]
    show parseIntChars ('-' :: renderNat i.natAbs) = some i
    unfold parseIntChars
    rw [if_pos (show ('-' :: renderNat i.natAbs).head? = some '-' from rfl)]
    show Option.map (fun n : Nat => -(n : Int)) (parseNat (renderNat i.natAbs)) = some i
    rw [parseNat_renderNat]
    simp only [Option.map_some']
    congr 1
    omega
  · rw [if_neg hneg]
    show parseIntChars (renderNat i.natAbs) = some i
    unfold parseIntChars
    have hhead : (renderNat i.natAbs).head? ≠ some '-' := by
      rcases hr : renderNat i.natAbs with _ | ⟨c, rest⟩
      · simp
      · simp only [List.head?_cons, ne_eq, Option.some.injEq]
        exact renderNat_head_ne_minus i.natAbs c (hr ▸ List.mem_cons_self c rest)
    rw [if_neg hhead, parseNat_renderNat]
    simp only [Option.map_some']
    congr 1
    omega

theorem sortParams_idem (l : List (String × String)) :
    sortParams (sortParams l) = sortParams l :=
  (List.sorted_insertionSort _ l).insertionSort_eq

theorem toyPrim_correct : SigCorrect toyPrim := by
  refine ⟨fun e => ?_, fun e => ?_, fun priv msg => ?_, fun e msg => ?_⟩
  · simp [toyPrim, toyDerive, ed25519PublicKeySize]
  · simp [toyPrim, toyPriv, ed25519PrivateKeySize]
  · simp [toyPrim, toySig, ed25519SignatureSize]
  · simp [toyPrim]

theorem SignTask_ok_elim (P : SigPrim) (task : Task) (priv pub : List Nat)
    (now : Int) (st : SignedTask) (h : SignTask P task priv pub now = .ok st) :
    priv.length = ed25519PrivateKeySize ∧ pub.length = ed25519PublicKeySize ∧
    Validate (some task) now = .ok () ∧
    st = { task := task, PublicKey := pub,
           Signature := P.sign priv (marshalTask task) } := by
  unfold SignTask at h
  by_cases h1 : priv.length ≠ ed25519PrivateKeySize
  · rw [if_pos h1] at h
    exact absurd h (by simp)
  · rw [if_neg h1] at h
    by_cases h2 : pub.length ≠ ed25519PublicKeySize
    · rw [if_pos h2] at h
      exact absurd h (by simp)
    · rw [if_neg h2] at h
      rcases hval : Validate (some task) now with e | u
      · rw [hval] at h
        exact absurd h (by simp)
      · cases u
        rw [hval] at h
        simp only [Except.ok.injEq] at h
        exact ⟨by omega, by omega, rfl, h.symm⟩

theorem VerifyTask_ok_of_sizes (P : SigPrim) (st : SignedTask) (now : Int)
    (hpub : st.PublicKey.length = ed25519PublicKeySize)
    (hsig : st.Signature.length = ed25519SignatureSize)
    (hver : P.verify st.PublicKey (marshalTask st.task) st.Signature = true)
    (hval : Validate (some st.task) now = .ok ()) :
    VerifyTask P (some st) now = .ok () := by
  simp only [VerifyTask]
  rw [if_neg (by omega), if_neg (by omega), if_neg (by rw [hver]; simp), hval]

theorem VerifyTask_expired_of_sizes (P : SigPrim) (st : SignedTask) (now : Int)
    (hpub : st.PublicKey.length = ed25519PublicKeySize)
    (hsig : st.Signature.length = ed25519SignatureSize)
    (hver : P.verify st.PublicKey (marshalTask st.task) st.Signature = true)
    (hfields : FieldInvariants st.task) (hexp : expiryOf st.task ≤ now) :
    VerifyTask P (some st) now = .error (.validation .expired) := by
  simp only [VerifyTask]
  rw [if_neg (by omega), if_neg (by omega), if_neg (by rw [hver]; simp),
    validate_expired_of_fields st.task now hfields hexp]

theorem roundtrip_ok (P : SigPrim) (hP : SigCorrect P) (e : List Nat)
    (task : Task) (nowSign nowVerify : Int) (st : SignedTask)
    (hsign : SignTask P task (P.keygen e).2 (P.keygen e).1 nowSign = .ok st)
    (hfresh : nowVerify < expiryOf task) :
    VerifyTask P (some st) nowVerify = .ok () := by
  obtain ⟨hpriv, hpub, hval, hst⟩ := SignTask_ok_elim _ _ _ _ _ _ hsign
  subst hst
  exact VerifyTask_ok_of_sizes P _ nowVerify (hP.keygen_pub_size e)
    (hP.sign_size _ _) (hP.verify_sign e _)
    (validate_ok_of_valid task nowVerify
      ⟨(validate_valid_of_ok task nowSign hval).1, hfresh⟩)

theorem roundtrip_expired (P : SigPrim) (hP : SigCorrect P) (e : List Nat)
    (task : Task) (nowSign nowVerify : Int) (st : SignedTask)
    (hsign : SignTask P task (P.keygen e).2 (P.keygen e).1 nowSign = .ok st)
    (hexp : expiryOf task ≤ nowVerify) :
    P.verify st.PublicKey (marshalTask st.task) st.Signature = true ∧
    VerifyTask P (some st) nowVerify = .error (.validation .expired) := by
  obtain ⟨hpriv, hpub, hval, hst⟩ := SignTask_ok_elim _ _ _ _ _ _ hsign
  subst hst
  refine ⟨hP.verify_sign e _, ?_⟩
  exact VerifyTask_expired_of_sizes P _ nowVerify (hP.keygen_pub_size e)
    (hP.sign_size _ _) (hP.verify_sign e _)
    (validate_valid_of_ok task nowSign hval).1 hexp

theorem string_append_cancel_left {a b c : String} (h : a ++ b = a ++ c) :
    b = c := by
  apply String.ext
  have hd := congrArg String.data h
  rw [String.data_append, String.data_append] at hd
  exact List.append_cancel_left hd

theorem Digest_inj {a b : String} (h : Digest a = Digest b) : a = b :=
  string_append_cancel_left h

theorem Digest_ne {a b : String} (h : a ≠ b) : Digest a ≠ Digest b :=
  fun he => h (Digest_inj he)

theorem verifyFrom_cons_elim {prev : String} {i : Nat} {r : AuditRecord}
    {rs : List AuditRecord} (h : verifyFrom prev i (r :: rs) = true) :
    r.sequence = i ∧ r.chain_hash = Digest (recordInput prev r) ∧
      verifyFrom r.chain_hash (i + 1) rs = true := by
  simp only [verifyFrom] at h
  by_cases h1 : r.sequence = i
  · rw [if_neg (not_not_intro h1)] at h
    by_cases h2 : r.chain_hash = Digest (recordInput prev r)
    · rw [if_neg (not_not_intro h2)] at h
      exact ⟨h1, h2, h⟩
    · rw [if_pos h2] at h
      exact absurd h (by decide)
  · rw [if_pos h1] at h
    exact absurd h (by decide)

theorem verifyFrom_cons_intro {prev : String} {i : Nat} {r : AuditRecord}
    (rs : List AuditRecord) (hseq : r.sequence = i)
    (hch : r.chain_hash = Digest (recordInput prev r)) :
    verifyFrom prev i (r :: rs) = verifyFrom r.chain_hash (i + 1) rs := by
  simp only [verifyFrom]
  rw [if_neg (not_not_intro hseq), if_neg (not_not_intro hch)]

theorem verifyFrom_append_of_true (xs : List AuditRecord) (ys : List AuditRecord)
    (prev : String) (i : Nat) (h : verifyFrom prev i xs = true) :
    verifyFrom prev i (xs ++ ys) =
      verifyFrom (walkLast prev xs) (i + xs.length) ys := by
  induction xs generalizing prev i with
  | nil => simp [walkLast]
  | cons x xs ih =>
    obtain ⟨hseq, hch, htail⟩ := verifyFrom_cons_elim h
    rw [List.cons_append, verifyFrom_cons_intro _ hseq hch, ih _ _ htail]
    have hlen : i + (x :: xs).length = i + 1 + xs.length := by
      simp [List.length_cons]; omega
    rw [hlen]
    rfl

theorem verifyFrom_append_true_left (xs ys : List AuditRecord) (prev : String)
    (i : Nat) (h : verifyFrom prev i (xs ++ ys) = true) :
    verifyFrom prev i xs = true := by
  induction xs generalizing prev i with
  | nil => rfl
  | cons x xs ih =>
    rw [List.cons_append] at h
    obtain ⟨hseq, hch, htail⟩ := verifyFrom_cons_elim h
    rw [verifyFrom_cons_intro _ hseq hch]
    exact ih _ _ htail

theorem verifyFrom_get (recs : List AuditRecord) (prev : String) (i k : Nat)
    (h : verifyFrom prev i recs = true) (hk : k < recs.length) :
    (recs.get ⟨k, hk⟩).sequence = i + k ∧
      (recs.get ⟨k, hk⟩).chain_hash =
        Digest (recordInput (walkLast prev (recs.take k)) (recs.get ⟨k, hk⟩)) := by
  induction recs generalizing prev i k with
  | nil => simp at hk
  | cons r rs ih =>
    obtain ⟨hseq, hch, htail⟩ := verifyFrom_cons_elim h
    cases k with
    | zero =>
      refine ⟨by simpa using hseq, ?_⟩
      simpa [walkLast] using hch
    | succ k =>
      have hk' : k < rs.length := by simpa using hk
      obtain ⟨ha, hb⟩ := ih _ _ k htail hk'
      refine ⟨?_, ?_⟩
      · simpa [Nat.add_assoc, Nat.add_comm 1 k] using ha
      · simpa [List.take_succ_cons, walkLast] using hb

theorem verifyFrom_set_false (recs : List AuditRecord) (prev : String)
    (i k : Nat) (r' : AuditRecord) (hver : verifyFrom prev i recs = true)
    (hk : k < recs.length)
    (hbad : ¬ (r'.sequence = i + k ∧ r'.chain_hash =
      Digest (recordInput (walkLast prev (recs.take k)) r'))) :
    verifyFrom prev i (recs.set k r') = false := by
  induction recs generalizing prev i k with
  | nil => simp at hk
  | cons r rs ih =>
    obtain ⟨hseq, hch, htail⟩ := verifyFrom_cons_elim hver
    cases k with
    | zero =>
      simp only [List.set]
      simp only [verifyFrom]
      by_cases h1 : r'.sequence = i
      · rw [if_neg (not_not_intro h1)]
        by_cases h2 : r'.chain_hash = Digest (recordInput prev r')
        · exact absurd ⟨by omega, by simpa [walkLast] using h2⟩ hbad
        · rw [if_pos h2]
      · rw [if_pos h1]
    | succ k =>
      have hk' : k < rs.length := by simpa using hk
      simp only [List.set]
      rw [verifyFrom_cons_intro _ hseq hch]
      refine ih _ _ k htail hk' ?_
      intro hcon
      apply hbad
      obtain ⟨ha, hb⟩ := hcon
      refine ⟨by omega, ?_⟩
      simpa [List.take_succ_cons, walkLast] using hb

theorem walkLast_append (xs ys : List AuditRecord) (prev : String) :
    walkLast prev (xs ++ ys) = walkLast (walkLast prev xs) ys := by
  induction xs generalizing prev with
  | nil => rfl
  | cons x xs ih =>
    rw [List.cons_append]
    show walkLast x.chain_hash (xs ++ ys) = _
    rw [ih]
    rfl

theorem appendRecord_wf (l : AuditLogger)
    (timestamp action resultPayload authorization task_id : String)
    (h : LogWF l) :
    LogWF (appendRecord l timestamp action resultPayload authorization task_id) := by
  obtain ⟨hver, hwalk⟩ := h
  constructor
  · show verifyFrom sentinelDigest 0 (l.records ++ [_]) = true
    rw [verifyFrom_append_of_true _ _ _ _ hver, hwalk]
    simp [verifyFrom, recordInput, chainInput]
  · show walkLast sentinelDigest (l.records ++ [_]) = _
    rw [walkLast_append]
    simp only [walkLast]
    simp [lastChainHash, appendRecord, List.getLast?_concat]

theorem runLog_wf (l : AuditLogger) (xs : List AppendInput) (h : LogWF l) :
    LogWF (runLog l xs) := by
  induction xs generalizing l with
  | nil => exact h
  | cons x xs ih => exact ih _ (appendRecord_wf _ _ _ _ _ _ h)

theorem newLogger_wf (engagement_id operator_id : String) :
    LogWF (newLogger engagement_id operator_id) := by
  constructor <;> rfl

theorem chainInput_data (prev : String) (seq : Nat)
    (ts op eng act rh auth : String) :
    (chainInput prev seq ts op eng act rh auth).data =
      prev.data ++ (renderNat seq ++ (ts.data ++ (op.data ++ (eng.data ++
        (act.data ++ (rh.data ++ auth.data)))))) := by
  simp [chainInput, String.data_append, List.append_assoc]

theorem chainInput_inj_ts {prev : String} {seq : Nat}
    {op eng act rh auth x y : String}
    (h : chainInput prev seq x op eng act rh auth =
      chainInput prev seq y op eng act rh auth) : x = y := by
  have hd := congrArg String.data h
  rw [chainInput_data, chainInput_data] at hd
  exact String.ext (List.append_cancel_right
    (List.append_cancel_left (List.append_cancel_left hd)))

theorem chainInput_inj_op {prev : String} {seq : Nat}
    {ts eng act rh auth x y : String}
    (h : chainInput prev seq ts x eng act rh auth =
      chainInput prev seq ts y eng act rh auth) : x = y := by
  have hd := congrArg String.data h
  rw [chainInput_data, chainInput_data] at hd
  exact String.ext (List.append_cancel_right
    (List.append_cancel_left (List.append_cancel_left (List.append_cancel_left hd))))

theorem chainInput_inj_eng {prev : String} {seq : Nat}
    {ts op act rh auth x y : String}
    (h : chainInput prev seq ts op x act rh auth =
      chainInput prev seq ts op y act rh auth) : x = y := by
  have hd := congrArg String.data h
  rw [chainInput_data, chainInput_data] at hd
  exact String.ext (List.append_cancel_right
    (List.append_cancel_left (List.append_cancel_left
      (List.append_cancel_left (List.append_cancel_left hd)))))

theorem chainInput_inj_act {prev : String} {seq : Nat}
    {ts op eng rh auth x y : String}
    (h : chainInput prev seq ts op eng x rh auth =
      chainInput prev seq ts op eng y rh auth) : x = y := by
  have hd := congrArg String.data h
  rw [chainInput_data, chainInput_data] at hd
  exact String.ext (List.append_cancel_right
    (List.append_cancel_left (List.append_cancel_left (List.append_cancel_left
      (List.append_cancel_left (List.append_cancel_left hd))))))

theorem chainInput_inj_rh {prev : String} {seq : Nat}
    {ts op eng act auth x y : String}
    (h : chainInput prev seq ts op eng act x auth =
      chainInput prev seq ts op eng act y auth) : x = y := by
  have hd := congrArg String.data h
  rw [chainInput_data, chainInput_data] at hd
  exact String.ext (List.append_cancel_right
    (List.append_cancel_left (List.append_cancel_left (List.append_cancel_left
      (List.append_cancel_left (List.append_cancel_left (List.append_cancel_left hd)))))))

theorem chainInput_inj_auth {prev : String} {seq : Nat}
    {ts op eng act rh x y : String}
    (h : chainInput prev seq ts op eng act rh x =
      chainInput prev seq ts op eng act rh y) : x = y := by
  have hd := congrArg String.data h
  rw [chainInput_data, chainInput_data] at hd
  exact String.ext
    (List.append_cancel_left (List.append_cancel_left (List.append_cancel_left
      (List.append_cancel_left (List.append_cancel_left (List.append_cancel_left
        (List.append_cancel_left hd)))))))

theorem verifyChain_set_seq (recs : List AuditRecord)
    (h : verifyChain recs = true) (k : Nat) (hk : k < recs.length) (v : Nat)
    (hne : v ≠ (recs.get ⟨k, hk⟩).sequence) :
    verifyChain (recs.set k { recs.get ⟨k, hk⟩ with sequence := v }) = false := by
  obtain ⟨hseq, hch⟩ := verifyFrom_get recs sentinelDigest 0 k h hk
  apply verifyFrom_set_false recs sentinelDigest 0 k _ h hk
  rintro ⟨ha, -⟩
  have ha' : v = 0 + k := ha
  exact hne (by omega)

theorem verifyChain_set_ch (recs : List AuditRecord)
    (h : verifyChain recs = true) (k : Nat) (hk : k < recs.length) (v : String)
    (hne : v ≠ (recs.get ⟨k, hk⟩).chain_hash) :
    verifyChain (recs.set k { recs.get ⟨k, hk⟩ with chain_hash := v }) = false := by
  obtain ⟨hseq, hch⟩ := verifyFrom_get recs sentinelDigest 0 k h hk
  apply verifyFrom_set_false recs sentinelDigest 0 k _ h hk
  rintro ⟨-, hb⟩
  have hb' : v = Digest (recordInput
      (walkLast sentinelDigest (recs.take k)) (recs.get ⟨k, hk⟩)) := hb
  exact hne (hb'.trans hch.symm)

theorem verifyChain_set_ts (recs : List AuditRecord)
    (h : verifyChain recs = true) (k : Nat) (hk : k < recs.length) (v : String)
    (hne : v ≠ (recs.get ⟨k, hk⟩).timestamp) :
    verifyChain (recs.set k { recs.get ⟨k, hk⟩ with timestamp := v }) = false := by
  obtain ⟨hseq, hch⟩ := verifyFrom_get recs sentinelDigest 0 k h hk
  apply verifyFrom_set_false recs sentinelDigest 0 k _ h hk
  rintro ⟨-, hb⟩
  dsimp only [recordInput] at hb
  rw [hch] at hb
  have hd := Digest_inj hb
  dsimp only [recordInput] at hd
  exact hne (chainInput_inj_ts hd).symm

theorem verifyChain_set_op (recs : List AuditRecord)
    (h : verifyChain recs = true) (k : Nat) (hk : k < recs.length) (v : String)
    (hne : v ≠ (recs.get ⟨k, hk⟩).operator_id) :
    verifyChain (recs.set k { recs.get ⟨k, hk⟩ with operator_id := v }) = false := by
  obtain ⟨hseq, hch⟩ := verifyFrom_get recs sentinelDigest 0 k h hk
  apply verifyFrom_set_false recs sentinelDigest 0 k _ h hk
  rintro ⟨-, hb⟩
  dsimp only [recordInput] at hb
  rw [hch] at hb
  have hd := Digest_inj hb
  dsimp only [recordInput] at hd
  exact hne (chainInput_inj_op hd).symm

theorem verifyChain_set_eng (recs : List AuditRecord)
    (h : verifyChain recs = true) (k : Nat) (hk : k < recs.length) (v : String)
    (hne : v ≠ (recs.get ⟨k, hk⟩).engagement_id) :
    verifyChain (recs.set k { recs.get ⟨k, hk⟩ with engagement_id := v }) = false := by
  obtain ⟨hseq, hch⟩ := verifyFrom_get recs sentinelDigest 0 k h hk
  apply verifyFrom_set_false recs sentinelDigest 0 k _ h hk
  rintro ⟨-, hb⟩
  dsimp only [recordInput] at hb
  rw [hch] at hb
  have hd := Digest_inj hb
  dsimp only [recordInput] at hd
  exact hne (chainInput_inj_eng hd).symm

theorem verifyChain_set_action (recs : List AuditRecord)
    (h : verifyChain recs = true) (k : Nat) (hk : k < recs.length) (v : String)
    (hne : v ≠ (recs.get ⟨k, hk⟩).action) :
    verifyChain (recs.set k { recs.get ⟨k, hk⟩ with action := v }) = false := by
  obtain ⟨hseq, hch⟩ := verifyFrom_get recs sentinelDigest 0 k h hk
  apply verifyFrom_set_false recs sentinelDigest 0 k _ h hk
  rintro ⟨-, hb⟩
  dsimp only [recordInput] at hb
  rw [hch] at hb
  have hd := Digest_inj hb
  dsimp only [recordInput] at hd
  exact hne (chainInput_inj_act hd).symm

theorem verifyChain_set_rh (recs : List AuditRecord)
    (h : verifyChain recs = true) (k : Nat) (hk : k < recs.length) (v : String)
    (hne : v ≠ (recs.get ⟨k, hk⟩).result_hash) :
    verifyChain (recs.set k { recs.get ⟨k, hk⟩ with result_hash := v }) = false := by
  obtain ⟨hseq, hch⟩ := verifyFrom_get recs sentinelDigest 0 k h hk
  apply verifyFrom_set_false recs sentinelDigest 0 k _ h hk
  rintro ⟨-, hb⟩
  dsimp only [recordInput] at hb
  rw [hch] at hb
  have hd := Digest_inj hb
  dsimp only [recordInput] at hd
  exact hne (chainInput_inj_rh hd).symm

theorem verifyChain_set_auth (recs : List AuditRecord)
    (h : verifyChain recs = true) (k : Nat) (hk : k < recs.length) (v : String)
    (hne : v ≠ (recs.get ⟨k, hk⟩).authorization) :
    verifyChain (recs.set k { recs.get ⟨k, hk⟩ with authorization := v }) = false := by
  obtain ⟨hseq, hch⟩ := verifyFrom_get recs sentinelDigest 0 k h hk
  apply verifyFrom_set_false recs sentinelDigest 0 k _ h hk
  rintro ⟨-, hb⟩
  dsimp only [recordInput] at hb
  rw [hch] at hb
  have hd := Digest_inj hb
  dsimp only [recordInput] at hd
  exact hne (chainInput_inj_auth hd).symm

theorem verifyChain_eraseIdx_false (recs : List AuditRecord)
    (h : verifyChain recs = true) (k : Nat) (hk : k + 1 < recs.length) :
    verifyChain (recs.eraseIdx k) = false := by
  have hpre : verifyFrom sentinelDigest 0 (recs.take k) = true := by
    apply verifyFrom_append_true_left (recs.take k) (recs.drop k)
    rw [List.take_append_drop]
    exact h
  unfold verifyChain
  rw [List.eraseIdx_eq_take_drop_succ,
    verifyFrom_append_of_true _ _ _ _ hpre]
  have hlen : (recs.take k).length = k := by
    rw [List.length_take]
    omega
  rw [hlen, List.drop_eq_getElem_cons hk]
  obtain ⟨hs, -⟩ := verifyFrom_get recs sentinelDigest 0 (k + 1) h hk
  have hs2 : recs[k + 1].sequence = 0 + (k + 1) := by simpa using hs
  simp only [verifyFrom]
  rw [if_pos (by omega)]

theorem sortParams_eq_nil_iff (l : List (String × String)) :
    sortParams l = [] ↔ l = [] := by
  constructor
  · intro h
    have hp := List.perm_insertionSort (fun p q : String × String => p.1 ≤ q.1) l
    rw [sortParams] at h
    rw [h] at hp
    exact hp.symm.eq_nil
  · intro h
    subst h
    rfl

theorem marshalTask_params_sorted (t : Task) :
    marshalTask { t with Params := sortParams t.Params } = marshalTask t := by
  unfold marshalTask
  dsimp only
  by_cases h0 : t.Params = []
  · rw [h0]
    rfl
  · have h1 : sortParams t.Params ≠ [] := fun he => h0 ((sortParams_eq_nil_iff _).mp he)
    rw [if_neg h1, if_neg h0]
    unfold marshalParams
    rw [sortParams_idem]

theorem wSign_ok :
    SignTask toyPrim wTask (GenerateKeyPair toyPrim [1]).2
      (GenerateKeyPair toyPrim [1]).1 5 = .ok wSigned := by
  unfold SignTask
  rw [if_neg (by decide), if_neg (by decide),
    show Validate (some wTask) 5 = .ok () from by decide]
  rfl

/-! ## Claim theorems -/

/-- C1: a task with identifier, engagement, operator and approver non-empty,
type and state in the allowed sets, TTL within 1..3600 seconds, and `now`
strictly before `createdAt + ttl` validates successfully; violating exactly
one of these conditions makes `Validate` fail with the error corresponding
to that condition. -/
theorem C1_validate_sound_complete :
    (∀ (t : Task) (now : Int), TaskValid t now → Validate (some t) now = .ok ()) ∧
    (∀ (t : Task) (now : Int),
      t.ID = "" → t.Engagement ≠ "" → t.Operator ≠ "" → t.ApprovedBy ≠ "" →
      t.typ ∈ allowedTaskTypes →
      minTTLSeconds ≤ t.TTLSeconds ∧ t.TTLSeconds ≤ maxTTLSeconds →
      t.State ∈ validTaskStates → now < expiryOf t →
      Validate (some t) now = .error .missingID) ∧
    (∀ (t : Task) (now : Int),
      t.ID ≠ "" → t.Engagement = "" → t.Operator ≠ "" → t.ApprovedBy ≠ "" →
      t.typ ∈ allowedTaskTypes →
      minTTLSeconds ≤ t.TTLSeconds ∧ t.TTLSeconds ≤ maxTTLSeconds →
      t.State ∈ validTaskStates → now < expiryOf t →
      Validate (some t) now = .error .missingEngagement) ∧
    (∀ (t : Task) (now : Int),
      t.ID ≠ "" → t.Engagement ≠ "" → t.Operator = "" → t.ApprovedBy ≠ "" →
      t.typ ∈ allowedTaskTypes →
      minTTLSeconds ≤ t.TTLSeconds ∧ t.TTLSeconds ≤ maxTTLSeconds →
      t.State ∈ validTaskStates → now < expiryOf t →
      Validate (some t) now = .error .missingOperator) ∧
    (∀ (t : Task) (now : Int),
      t.ID ≠ "" → t.Engagement ≠ "" → t.Operator ≠ "" → t.ApprovedBy = "" →
      t.typ ∈ allowedTaskTypes →
      minTTLSeconds ≤ t.TTLSeconds ∧ t.TTLSeconds ≤ maxTTLSeconds →
      t.State ∈ validTaskStates → now < expiryOf t →
      Validate (some t) now = .error .missingApprovedBy) ∧
    (∀ (t : Task) (now : Int),
      t.ID ≠ "" → t.Engagement ≠ "" → t.Operator ≠ "" → t.ApprovedBy ≠ "" →
      t.typ ∉ allowedTaskTypes →
      minTTLSeconds ≤ t.TTLSeconds ∧ t.TTLSeconds ≤ maxTTLSeconds →
      t.State ∈ validTaskStates → now < expiryOf t →
      Validate (some t) now = .error .unsupportedType) ∧
    (∀ (t : Task) (now : Int),
      t.ID ≠ "" → t.Engagement ≠ "" → t.Operator ≠ "" → t.ApprovedBy ≠ "" →
      t.typ ∈ allowedTaskTypes →
      ¬ (minTTLSeconds ≤ t.TTLSeconds ∧ t.TTLSeconds ≤ maxTTLSeconds) →
      t.State ∈ validTaskStates → now < expiryOf t →
      Validate (some t) now = .error .ttlOutOfRange) ∧
    (∀ (t : Task) (now : Int),
      t.ID ≠ "" → t.Engagement ≠ "" → t.Operator ≠ "" → t.ApprovedBy ≠ "" →
      t.typ ∈ allowedTaskTypes →
      minTTLSeconds ≤ t.TTLSeconds ∧ t.TTLSeconds ≤ maxTTLSeconds →
      t.State ∉ validTaskStates → now < expiryOf t →
      Validate (some t) now = .error .invalidState) ∧
    (∀ (t : Task) (now : Int),
      t.ID ≠ "" → t.Engagement ≠ "" → t.Operator ≠ "" → t.ApprovedBy ≠ "" →
      t.typ ∈ allowedTaskTypes →
      minTTLSeconds ≤ t.TTLSeconds ∧ t.TTLSeconds ≤ maxTTLSeconds →
      t.State ∈ validTaskStates → expiryOf t ≤ now →
      Validate (some t) now = .error .expired) := by
  refine ⟨validate_ok_of_valid, ?_, ?_, ?_, ?_, ?_, ?_, ?_, ?_⟩
  · intro t now h1 h2 h3 h4 h5 h6 h7 h8
    simp [Validate, h1]
  · intro t now h1 h2 h3 h4 h5 h6 h7 h8
    simp [Validate, h1, h2]
  · intro t now h1 h2 h3 h4 h5 h6 h7 h8
    simp [Validate, h1, h2, h3]
  · intro t now h1 h2 h3 h4 h5 h6 h7 h8
    simp [Validate, h1, h2, h3, h4]
  · intro t now h1 h2 h3 h4 h5 h6 h7 h8
    simp [Validate, h1, h2, h3, h4, h5]
  · intro t now h1 h2 h3 h4 h5 h6 h7 h8
    have h6' : t.TTLSeconds < minTTLSeconds ∨ t.TTLSeconds > maxTTLSeconds := by
      rcases not_and_or.mp h6 with h | h
      · exact Or.inl (by omega)
      · exact Or.inr (by omega)
    simp only [Validate]
    rw [if_neg h1, if_neg h2, if_neg h3, if_neg h4,
      if_neg (not_not_intro h5), if_pos h6']
  · intro t now h1 h2 h3 h4 h5 h6 h7 h8
    simp only [Validate]
    rw [if_neg h1, if_neg h2, if_neg h3, if_neg h4,
      if_neg (not_not_intro h5), if_neg (by omega), if_pos h7]
  · intro t now h1 h2 h3 h4 h5 h6 h7 h8
    exact validate_expired_of_fields t now ⟨h1, h2, h3, h4, h5, h6, h7⟩ h8

/-- C1 witness: the conditions and every single-violation case evaluated at a
concrete task and instant. -/
theorem C1_witness :
    Validate (some wTask) 5 = .ok () ∧
    Validate (some { wTask with ID := "" }) 5 = .error .missingID ∧
    Validate (some { wTask with Engagement := "" }) 5 = .error .missingEngagement ∧
    Validate (some { wTask with Operator := "" }) 5 = .error .missingOperator ∧
    Validate (some { wTask with ApprovedBy := "" }) 5 = .error .missingApprovedBy ∧
    Validate (some { wTask with typ := "malware" }) 5 = .error .unsupportedType ∧
    Validate (some { wTask with TTLSeconds := 5000 }) 5 = .error .ttlOutOfRange ∧
    Validate (some { wTask with State := "approved" }) 5 = .error .invalidState ∧
    Validate (some wTask) 700000000000 = .error .expired := by
  obtain ⟨p1, p2, p3, p4, p5, p6, p7, p8, p9⟩ := C1_validate_sound_complete
  exact ⟨p1 wTask 5 (by decide),
    p2 _ 5 (by decide) (by decide) (by decide) (by decide) (by decide)
      (by decide) (by decide) (by decide),
    p3 _ 5 (by decide) (by decide) (by decide) (by decide) (by decide)
      (by decide) (by decide) (by decide),
    p4 _ 5 (by decide) (by decide) (by decide) (by decide) (by decide)
      (by decide) (by decide) (by decide),
    p5 _ 5 (by decide) (by decide) (by decide) (by decide) (by decide)
      (by decide) (by decide) (by decide),
    p6 _ 5 (by decide) (by decide) (by decide) (by decide) (by decide)
      (by decide) (by decide) (by decide),
    p7 _ 5 (by decide) (by decide) (by decide) (by decide) (by decide)
      (by decide) (by decide) (by decide),
    p8 _ 5 (by decide) (by decide) (by decide) (by decide) (by decide)
      (by decide) (by decide) (by decide),
    p9 wTask 700000000000 (by decide) (by decide) (by decide) (by decide)
      (by decide) (by decide) (by decide) (by decide)⟩

/-- C2: at the exact instant `now = createdAt + ttl` a task never validates;
when the task's other invariants hold, the failure is the expiry error —
equality at the boundary counts as expired, never as valid. -/
theorem C2_expiry_boundary :
    (∀ (t : Task) (now : Int), now = expiryOf t →
      Validate (some t) now ≠ .ok ()) ∧
    (∀ (t : Task) (now : Int), FieldInvariants t → now = expiryOf t →
      Validate (some t) now = .error .expired) := by
  constructor
  · intro t now h hok
    have := (validate_valid_of_ok t now hok).2
    omega
  · intro t now hf h
    exact validate_expired_of_fields t now hf (by omega)

/-- C2 witness: the boundary instant of a concrete task. -/
theorem C2_witness :
    Validate (some wTask) 600000000000 ≠ .ok () ∧
    Validate (some wTask) 600000000000 = .error .expired := by
  obtain ⟨p1, p2⟩ := C2_expiry_boundary
  exact ⟨p1 wTask _ (by decide), p2 wTask _ (by decide) (by decide)⟩

/-- C3: for a task valid at signing time and a matching generated key pair,
signing and then verifying before the task's expiry succeeds on the
unmodified signed task. -/
theorem C3_sign_then_verify (P : SigPrim) (hP : SigCorrect P) (e : List Nat)
    (task : Task) (nowSign nowVerify : Int) (st : SignedTask)
    (hsign : SignTask P task (GenerateKeyPair P e).2
      (GenerateKeyPair P e).1 nowSign = .ok st)
    (hfresh : nowVerify < expiryOf task) :
    VerifyTask P (some st) nowVerify = .ok () :=
  roundtrip_ok P hP e task nowSign nowVerify st hsign hfresh

/-- C3 witness: a concrete signed task verifies before expiry. -/
theorem C3_witness : VerifyTask toyPrim (some wSigned) 7 = .ok () :=
  C3_sign_then_verify toyPrim toyPrim_correct [1] wTask 5 7 wSigned wSign_ok
    (by decide)

/-- C4: verification re-validates the embedded task at the verification
instant: at or after `createdAt + ttl` the unchanged signed task fails with
the expiry error even though the signature check itself passes. -/
theorem C4_verify_revalidates_now (P : SigPrim) (hP : SigCorrect P)
    (e : List Nat) (task : Task) (nowSign nowVerify : Int) (st : SignedTask)
    (hsign : SignTask P task (GenerateKeyPair P e).2
      (GenerateKeyPair P e).1 nowSign = .ok st)
    (hexp : expiryOf task ≤ nowVerify) :
    P.verify st.PublicKey (marshalTask st.task) st.Signature = true ∧
    VerifyTask P (some st) nowVerify = .error (.validation .expired) :=
  roundtrip_expired P hP e task nowSign nowVerify st hsign hexp

/-- C4 witness: the signed task of C3's witness re-verified after expiry. -/
theorem C4_witness :
    toyPrim.verify wSigned.PublicKey (marshalTask wSigned.task)
      wSigned.Signature = true ∧
    VerifyTask toyPrim (some wSigned) 600000000001 =
      .error (.validation .expired) :=
  C4_verify_revalidates_now toyPrim toyPrim_correct [1] wTask 5 600000000001
    wSigned wSign_ok (by decide)

/-- C5: `SignTask` rejects a wrongly sized private or public key and
`VerifyTask` rejects a wrongly sized public key or signature, independently
of the task content (no validity hypothesis appears). -/
theorem C5_size_checks :
    (∀ (P : SigPrim) (task : Task) (priv pub : List Nat) (now : Int),
      priv.length ≠ ed25519PrivateKeySize →
      SignTask P task priv pub now = .error .invalidPrivateKeySize) ∧
    (∀ (P : SigPrim) (task : Task) (priv pub : List Nat) (now : Int),
      priv.length = ed25519PrivateKeySize →
      pub.length ≠ ed25519PublicKeySize →
      SignTask P task priv pub now = .error .invalidPublicKeySize) ∧
    (∀ (P : SigPrim) (st : SignedTask) (now : Int),
      st.PublicKey.length ≠ ed25519PublicKeySize →
      VerifyTask P (some st) now = .error .invalidPublicKeySize) ∧
    (∀ (P : SigPrim) (st : SignedTask) (now : Int),
      st.PublicKey.length = ed25519PublicKeySize →
      st.Signature.length ≠ ed25519SignatureSize →
      VerifyTask P (some st) now = .error .invalidSignatureSize) := by
  refine ⟨?_, ?_, ?_, ?_⟩
  · intro P task priv pub now h
    unfold SignTask
    rw [if_pos h]
  · intro P task priv pub now h1 h2
    unfold SignTask
    rw [if_neg (not_not_intro h1), if_pos h2]
  · intro P st now h
    simp only [VerifyTask]
    rw [if_pos h]
  · intro P st now h1 h2
    simp only [VerifyTask]
    rw [if_neg (not_not_intro h1), if_pos h2]

/-- C5 witness: malformed key and signature sizes on concrete values, with an
otherwise-invalid task for the signing cases. -/
theorem C5_witness :
    SignTask toyPrim { wTask with ID := "" } [1] wPub 5 =
      .error .invalidPrivateKeySize ∧
    SignTask toyPrim { wTask with ID := "" } wPriv [2] 5 =
      .error .invalidPublicKeySize ∧
    VerifyTask toyPrim (some { wSigned with PublicKey := [3] }) 5 =
      .error .invalidPublicKeySize ∧
    VerifyTask toyPrim (some { wSigned with Signature := [4] }) 5 =
      .error .invalidSignatureSize := by
  obtain ⟨p1, p2, p3, p4⟩ := C5_size_checks
  exact ⟨p1 toyPrim _ [1] wPub 5 (by decide),
    p2 toyPrim _ wPriv [2] 5 (by decide) (by decide),
    p3 toyPrim _ 5 (by decide),
    p4 toyPrim _ 5 (by decide) (by decide)⟩

/-- C10: validating a nil task pointer returns the nil-task error (it never
panics), at every instant. -/
theorem C10_nil_validate (now : Int) :
    Validate none now = .error .nilTask := rfl

/-- C6: the claim that a SignedTask is independent of the caller's original
task fails for the Params map.  Go's struct copy shares the map reference:
after signing succeeds and verification passes, a single in-place update of
the caller's map changes the task embedded in the previously issued
SignedTask and flips its verification to a signature failure. -/
theorem C6_params_map_aliasing :
    SignTaskGo toyPrim wHeap wGoTask wPriv wPub 5 = .ok wGoSigned ∧
    VerifyTaskGo toyPrim wHeap (some wGoSigned) 7 = .ok () ∧
    readTask wHeapMut wGoSigned.task ≠ readTask wHeap wGoSigned.task ∧
    VerifyTaskGo toyPrim wHeapMut (some wGoSigned) 7 =
      .error .signatureInvalid := by
  set_option maxRecDepth 8000 in
  refine ⟨by decide, by decide, by decide, by decide⟩

/-- C7 counterexample: `VerifyTask` and `GenerateKeyPair` are not functions
of their explicit Go-level arguments alone — the same signed task verifies
differently at two instants of the internal clock, and key generation
differs across two states of the global entropy source. -/
theorem C7_counterexample :
    VerifyTask toyPrim (some wSigned) 7 ≠
      VerifyTask toyPrim (some wSigned) 600000000001 ∧
    GenerateKeyPair toyPrim [0] ≠ GenerateKeyPair toyPrim [1] := by
  constructor
  · have h1 : VerifyTask toyPrim (some wSigned) 7 = .ok () :=
      roundtrip_ok toyPrim toyPrim_correct [1] wTask 5 7 wSigned wSign_ok
        (by decide)
    have h2 := roundtrip_expired toyPrim toyPrim_correct [1] wTask 5
      600000000001 wSigned wSign_ok (by decide)
    rw [h1, h2.2]
    decide
  · decide

/-- C7 amended: `Validate` takes `now` explicitly and the signature itself is
deterministic — `SignTask` depends on its hidden clock reading only through
the validity gate, so two invocations at instants where the task validates
produce identical results; `VerifyTask` and `GenerateKeyPair`, however, read
the global clock and entropy source internally. -/
theorem C7_clock_determinism_amended (P : SigPrim) (t : Task)
    (priv pub : List Nat) (n1 n2 : Int)
    (h1 : Validate (some t) n1 = .ok ())
    (h2 : Validate (some t) n2 = .ok ()) :
    SignTask P t priv pub n1 = SignTask P t priv pub n2 := by
  unfold SignTask
  rw [h1, h2]

/-- C7 witness: two signing instants inside the validity window. -/
theorem C7_witness :
    SignTask toyPrim wTask wPriv wPub 5 = SignTask toyPrim wTask wPriv wPub 7 :=
  C7_clock_determinism_amended toyPrim wTask wPriv wPub 5 7 (by decide)
    (by decide)

/-- C8: serializing a SignedTask to its external representation and
deserializing it back yields a task whose canonical payload is byte-identical
and whose verification outcome at every primitive and instant equals the
original's. -/
theorem C8_serialize_roundtrip (st : SignedTask) :
    unmarshalSignedTask (marshalSignedTask st) = some (canonSigned st) ∧
    marshalTask (canonSigned st).task = marshalTask st.task ∧
    ∀ (P : SigPrim) (now : Int),
      VerifyTask P (some (canonSigned st)) now = VerifyTask P (some st) now := by
  refine ⟨?_, marshalTask_params_sorted st.task, ?_⟩
  · unfold unmarshalSignedTask marshalSignedTask
    rw [parseInt_renderInt]
    rfl
  · intro P now
    simp only [VerifyTask]
    rw [show marshalTask (canonSigned st).task = marshalTask st.task from
      marshalTask_params_sorted st.task]
    rfl

/-- C9 amended: for every log produced only by append, `verifyChain` is true
and each record's chain hash satisfies the chain invariant with the sentinel
digest standing before the first record; changing any single hashed field
(timestamp, operator, engagement, action, result hash, authorization), the
sequence number, or the stored chain hash of any one record makes
`verifyChain` false, and removing a record from the middle makes
`verifyChain` false.  Changing only the unhashed `task_id` or `prev_hash`
fields is not detected (see the counterexample), so the claim holds for all
fields except those two. -/
theorem C9_audit_chain_amended (eng op : String) (xs : List AppendInput)
    (recs : List AuditRecord)
    (hrecs : recs = (runLog (newLogger eng op) xs).records) :
    verifyChain recs = true ∧
    (∀ (k : Nat) (hk : k < recs.length),
      (recs.get ⟨k, hk⟩).sequence = k ∧
      (recs.get ⟨k, hk⟩).chain_hash =
        Digest (recordInput (walkLast sentinelDigest (recs.take k))
          (recs.get ⟨k, hk⟩))) ∧
    (∀ (k : Nat) (hk : k < recs.length) (v : Nat),
      v ≠ (recs.get ⟨k, hk⟩).sequence →
      verifyChain (recs.set k { recs.get ⟨k, hk⟩ with sequence := v }) = false) ∧
    (∀ (k : Nat) (hk : k < recs.length) (v : String),
      v ≠ (recs.get ⟨k, hk⟩).timestamp →
      verifyChain (recs.set k { recs.get ⟨k, hk⟩ with timestamp := v }) = false) ∧
    (∀ (k : Nat) (hk : k < recs.length) (v : String),
      v ≠ (recs.get ⟨k, hk⟩).operator_id →
      verifyChain (recs.set k { recs.get ⟨k, hk⟩ with operator_id := v }) = false) ∧
    (∀ (k : Nat) (hk : k < recs.length) (v : String),
      v ≠ (recs.get ⟨k, hk⟩).engagement_id →
      verifyChain (recs.set k { recs.get ⟨k, hk⟩ with engagement_id := v }) = false) ∧
    (∀ (k : Nat) (hk : k < recs.length) (v : String),
      v ≠ (recs.get ⟨k, hk⟩).action →
      verifyChain (recs.set k { recs.get ⟨k, hk⟩ with action := v }) = false) ∧
    (∀ (k : Nat) (hk : k < recs.length) (v : String),
      v ≠ (recs.get ⟨k, hk⟩).result_hash →
      verifyChain (recs.set k { recs.get ⟨k, hk⟩ with result_hash := v }) = false) ∧
    (∀ (k : Nat) (hk : k < recs.length) (v : String),
      v ≠ (recs.get ⟨k, hk⟩).authorization →
      verifyChain (recs.set k { recs.get ⟨k, hk⟩ with authorization := v }) = false) ∧
    (∀ (k : Nat) (hk : k < recs.length) (v : String),
      v ≠ (recs.get ⟨k, hk⟩).chain_hash →
      verifyChain (recs.set k { recs.get ⟨k, hk⟩ with chain_hash := v }) = false) ∧
    (∀ (k : Nat), k + 1 < recs.length → verifyChain (recs.eraseIdx k) = false) := by
  subst hrecs
  have hver : verifyChain (runLog (newLogger eng op) xs).records = true :=
    (runLog_wf _ xs (newLogger_wf eng op)).1
  refine ⟨hver, ?_, ?_, ?_, ?_, ?_, ?_, ?_, ?_, ?_, ?_⟩
  · intro k hk
    obtain ⟨hs, hc⟩ := verifyFrom_get _ sentinelDigest 0 k hver hk
    exact ⟨by omega, hc⟩
  · exact fun k hk v hne => verifyChain_set_seq _ hver k hk v hne
  · exact fun k hk v hne => verifyChain_set_ts _ hver k hk v hne
  · exact fun k hk v hne => verifyChain_set_op _ hver k hk v hne
  · exact fun k hk v hne => verifyChain_set_eng _ hver k hk v hne
  · exact fun k hk v hne => verifyChain_set_action _ hver k hk v hne
  · exact fun k hk v hne => verifyChain_set_rh _ hver k hk v hne
  · exact fun k hk v hne => verifyChain_set_auth _ hver k hk v hne
  · exact fun k hk v hne => verifyChain_set_ch _ hver k hk v hne
  · exact fun k hk => verifyChain_eraseIdx_false _ hver k hk

/-- C9 witness: the amended theorem exercised on a concrete three-record
log — the untouched log verifies; an action, sequence, or chain-hash
mutation of record 1, and removal of record 1, each break verification. -/
theorem C9_witness :
    verifyChain wRecs = true ∧
    verifyChain (wRecs.set 1 { wRecs.getD 1 wDefaultRec with action := "evil" }) = false ∧
    verifyChain (wRecs.set 1 { wRecs.getD 1 wDefaultRec with sequence := 7 }) = false ∧
    verifyChain (wRecs.set 1 { wRecs.getD 1 wDefaultRec with chain_hash := "forged" }) = false ∧
    verifyChain (wRecs.eraseIdx 1) = false := by
  have h := C9_audit_chain_amended "eng-2026-q1" "op-alice" wAppends wRecs rfl
  obtain ⟨h1, hinv, hseq, hts, hop, heng, hact, hrh, hauth, hch, herase⟩ := h
  set_option maxRecDepth 8000 in
  exact ⟨h1,
    hact 1 (by decide) "evil" (by decide),
    hseq 1 (by decide) 7 (by decide),
    hch 1 (by decide) "forged" (by decide),
    herase 1 (by decide)⟩

/-- C9 counterexample: record 1 of an append-built log with its stored
`task_id` field (and nothing else) replaced still passes `verifyChain`,
refuting "mutating any single field of any one record causes verifyChain to
return false". -/
theorem C9_counterexample :
    wMutRecs = wRecs.set 1 { wRecs.getD 1 wDefaultRec with task_id := "task-999" } ∧
    wMutRecs ≠ wRecs ∧
    verifyChain wRecs = true ∧
    verifyChain wMutRecs = true := by
  set_option maxRecDepth 8000 in
  exact ⟨rfl, by decide, by decide, by decide⟩

end RTE
